import Mathlib

/-!
Shallow embedding of the Jane-Doe-Project matching and search engine.

Sources embedded:
* src/models/person.py            — data model (Race, Sex, PhysicalCharacteristics,
                                    Location, PersonRecord, SearchCriteria, SearchResult)
* src/search/matching.py          — MatchingEngine (attribute scorers, weighted aggregation)
* src/search/engine.py            — SearchEngine (threshold filter, stable sort, cap)
* src/database/manager.py         — DatabaseManager (source selection, error isolation)

Modelling conventions:
* Python floats are modelled as exact rationals (ℚ).
* Python truthiness of optional numbers (None and 0 are falsy), optional strings
  (None and "" are falsy) and lists ([] is falsy) is modelled explicitly.
* The external fuzzywuzzy library (fuzz.ratio, fuzz.partial_ratio) is modelled from its
  documented semantics: fuzz.ratio is the normalized edit-distance ratio
  2·LCS(a,b)/(|a|+|b|) (both arguments empty-checked to 0), and fuzz.partial_ratio is the
  best full-window ratio of the shorter string against substrings of the longer one.
  The library's rounding of the ratio to an integer percentage is omitted; the repository
  divides the percentage by 100, and the composition of both steps is modelled directly
  as a rational in [0,1].
* Python str.lower()/str.upper() are modelled character-wise (ASCII case mapping).
* Fields never read by the matching/search pipeline (dates, photos, narrative fields,
  coordinates) are omitted; match-reason strings are presentational and omitted.
* Data-source adapters are external collaborators; a source is modelled as an
  availability flag plus a fallible search function (exceptions become Except.error).
-/

namespace JaneDoe

/-- Race categories, from the Race enum in src/models/person.py. -/
inductive Race where
  | white
  | blackAfricanAmerican
  | hispanicLatino
  | asian
  | nativeAmerican
  | pacificIslander
  | multiracial
  | unknown
deriving DecidableEq

/-- The .value string of each Race enum member (src/models/person.py). -/
def Race.value : Race → String
  | .white => "White"
  | .blackAfricanAmerican => "Black/African American"
  | .hispanicLatino => "Hispanic/Latino"
  | .asian => "Asian"
  | .nativeAmerican => "Native American"
  | .pacificIslander => "Pacific Islander"
  | .multiracial => "Multiracial"
  | .unknown => "Unknown"

/-- Sex categories, from the Sex enum in src/models/person.py. -/
inductive Sex where
  | male
  | female
  | unknown
deriving DecidableEq

/-- PhysicalCharacteristics dataclass (src/models/person.py). Numeric fields are
optional rationals; distinguishing_marks defaults to the empty list as in
the dataclass __post_init__. -/
structure PhysicalCharacteristics where
  height_min : Option ℚ := none
  height_max : Option ℚ := none
  weight_min : Option ℚ := none
  weight_max : Option ℚ := none
  race : Option Race := none
  sex : Option Sex := none
  age_min : Option ℚ := none
  age_max : Option ℚ := none
  hair_color : Option String := none
  eye_color : Option String := none
  distinguishing_marks : List String := []
deriving DecidableEq

/-- Location dataclass (src/models/person.py); coordinates are never read by the
engine and are omitted. -/
structure Location where
  state : Option String := none
  county : Option String := none
  city : Option String := none
  country : String := "United States"
deriving DecidableEq

/-- PersonRecord dataclass (src/models/person.py), restricted to the fields read by
the matching and search pipeline; __post_init__ default sub-structures are the
structure defaults. -/
structure PersonRecord where
  case_id : String
  database_source : String
  case_url : Option String := none
  physical_characteristics : PhysicalCharacteristics := {}
  location_found : Location := {}
deriving DecidableEq

/-- SearchCriteria dataclass (src/models/person.py), restricted to the fields read by
the engine. databases = [] models both None and an empty list (both falsy in the
search_all guard). -/
structure SearchCriteria where
  physical_characteristics : PhysicalCharacteristics := {}
  location : Location := {}
  databases : List String := []
deriving DecidableEq

/-- SearchResult dataclass (src/models/person.py); the match_reasons strings are
presentational and omitted. -/
structure SearchResult where
  person_record : PersonRecord
  confidence_score : ℚ
deriving DecidableEq

/-- Python truthiness of an optional number: None and 0 are falsy. -/
def numTruthy : Option ℚ → Bool
  | none => false
  | some x => decide (x ≠ 0)

/-- Python truthiness of an optional string: None and "" are falsy. -/
def strTruthy : Option String → Bool
  | none => false
  | some s => decide (s ≠ "")

/-- Python's a or b on optional numbers: a if truthy, else b. -/
def pyOrNum (a b : Option ℚ) : Option ℚ :=
  if numTruthy a then a else b

/-- Python's a or d for an optional number against a non-optional default,
as in criteria_pc.height_min or 0 (src/search/matching.py). -/
def orDefaultNum (a : Option ℚ) (d : ℚ) : ℚ :=
  match a with
  | none => d
  | some x => if x = 0 then d else x

/-- Python str.lower(), character-wise ASCII case mapping. -/
def pyLower (s : String) : String := ⟨s.data.map Char.toLower⟩

/-- Python str.upper(), character-wise ASCII case mapping. -/
def pyUpper (s : String) : String := ⟨s.data.map Char.toUpper⟩

/-- Python sum(l)/len(l) if l else 0.0, the average idiom used by the location and
distinguishing-marks scorers (src/search/matching.py). -/
def pyAvg (l : List ℚ) : ℚ :=
  if l = [] then 0 else l.sum / (l.length : ℚ)

/-- Length of a longest common subsequence of two character lists; the combinatorial
core of the edit-distance ratio computed by the external fuzzywuzzy library. -/
def lcs : List Char → List Char → ℕ
  | [], _ => 0
  | _ :: _, [] => 0
  | a :: as, b :: bs =>
    if a = b then lcs as bs + 1
    else max (lcs as (b :: bs)) (lcs (a :: as) bs)
termination_by xs ys => xs.length + ys.length

/-- Normalized similarity ratio 2·LCS(a,b)/(|a|+|b|) of two character lists, the
edit-distance-based ratio underlying fuzz.ratio (insert/delete cost 1,
substitution cost 2). -/
def ratioQ (a b : List Char) : ℚ :=
  if a.length + b.length = 0 then 0
  else (2 * (lcs a b : ℚ)) / (((a.length + b.length : ℕ) : ℚ))

/-- Modelled from the external fuzzywuzzy library: fuzz.ratio(a, b)/100.0 as used
throughout src/search/matching.py. The library returns 0 when either string is
empty, else the normalized edit-distance ratio. -/
def fuzzRatio (a b : String) : ℚ :=
  if a.data = [] ∨ b.data = [] then 0 else ratioQ a.data b.data

/-- Best ratio of the shorter list s against each window of length |s| in the
longer list l (the partial-containment scan of fuzz.partial_ratio). -/
def bestWindow (s l : List Char) : ℚ :=
  ((List.range (l.length - s.length + 1)).map
    (fun i => ratioQ s ((l.drop i).take s.length))).foldr max 0

/-- Modelled from the external fuzzywuzzy library: fuzz.partial_ratio(a, b)/100.0 as
used by the distinguishing-marks scorer. The shorter string is scanned across the
longer one and the best window ratio is returned; empty input gives 0. -/
def fuzzPartialRatio (a b : String) : ℚ :=
  if a.data = [] ∨ b.data = [] then 0
  else if a.data.length ≤ b.data.length then bestWindow a.data b.data
  else bestWindow b.data a.data

/-- MatchingEngine._get_height_value / _get_weight_value / _get_age_value share this
rule (src/search/matching.py): if both bounds are truthy, their arithmetic mean;
otherwise the Python fallback lo or hi. -/
def collapseRange (lo hi : Option ℚ) : Option ℚ :=
  if numTruthy lo && numTruthy hi then some ((lo.getD 0 + hi.getD 0) / 2)
  else pyOrNum lo hi

/-- MatchingEngine._get_height_value (src/search/matching.py lines 260-264). -/
def getHeightValue (pc : PhysicalCharacteristics) : Option ℚ :=
  collapseRange pc.height_min pc.height_max

/-- MatchingEngine._get_weight_value (src/search/matching.py lines 266-270). -/
def getWeightValue (pc : PhysicalCharacteristics) : Option ℚ :=
  collapseRange pc.weight_min pc.weight_max

/-- MatchingEngine._get_age_value (src/search/matching.py lines 272-276). -/
def getAgeValue (pc : PhysicalCharacteristics) : Option ℚ :=
  collapseRange pc.age_min pc.age_max

/-- Common body of _match_height_range / _match_weight_range / _match_age_range
(src/search/matching.py): a falsy record value scores 0; a value inside the
effective query range [cmin or 0, cmax or defaultMax] scores 1; otherwise the
distance to the nearest effective bound decays linearly over the tolerance. -/
def rangeScore (recordValue : Option ℚ) (cmin cmax : Option ℚ) (defaultMax tol : ℚ) : ℚ :=
  match recordValue with
  | none => 0
  | some h =>
    if h = 0 then 0
    else
      let lo := orDefaultNum cmin 0
      let hi := orDefaultNum cmax defaultMax
      if lo ≤ h ∧ h ≤ hi then 1
      else
        let d := if h < lo then lo - h else h - hi
        if d ≤ tol then max 0 (1 - d / tol) else 0

/-- MatchingEngine._match_height_range (src/search/matching.py lines 112-137):
default ceiling 100 inches, tolerance 3 inches. -/
def matchHeightRange (rpc cpc : PhysicalCharacteristics) : ℚ :=
  rangeScore (getHeightValue rpc) cpc.height_min cpc.height_max 100 3

/-- MatchingEngine._match_weight_range (src/search/matching.py lines 139-164):
default ceiling 500 pounds, tolerance 20 pounds. -/
def matchWeightRange (rpc cpc : PhysicalCharacteristics) : ℚ :=
  rangeScore (getWeightValue rpc) cpc.weight_min cpc.weight_max 500 20

/-- MatchingEngine._match_age_range (src/search/matching.py lines 166-191):
default ceiling 120 years, tolerance 5 years. -/
def matchAgeRange (rpc cpc : PhysicalCharacteristics) : ℚ :=
  rangeScore (getAgeValue rpc) cpc.age_min cpc.age_max 120 5

/-- The case-insensitive string similarity applied by the location scorer to the
state, county and city fields: fuzz.ratio of the lowercased strings, over 100. -/
def strSimilarity (a b : String) : ℚ :=
  fuzzRatio (pyLower a) (pyLower b)

/-- MatchingEngine._fuzzy_race_match (src/search/matching.py lines 252-258):
fuzz.ratio of the lowercased enum value strings, over 100. -/
def fuzzyRaceMatch (race1 race2 : Race) : ℚ :=
  fuzzRatio (pyLower race1.value) (pyLower race2.value)

/-- The case-insensitive partial-containment similarity applied by the
distinguishing-marks scorer to one (criteria mark, record mark) pair:
fuzz.partial_ratio of the lowercased strings, over 100. -/
def markSimilarity (criteriaMark recordMark : String) : ℚ :=
  fuzzPartialRatio (pyLower criteriaMark) (pyLower recordMark)

/-- State sub-scores of _match_location (src/search/matching.py lines 202-212):
exact case-insensitive match scores 1.0, else the similarity if above 0.3. -/
def stateScores (recordLocation criteriaLocation : Location) : List ℚ :=
  if strTruthy criteriaLocation.state && strTruthy recordLocation.state then
    let cs := criteriaLocation.state.getD ""
    let rs := recordLocation.state.getD ""
    if pyUpper cs = pyUpper rs then [1]
    else
      let s := strSimilarity cs rs
      if 3/10 < s then [s] else []
  else []

/-- County sub-scores of _match_location (src/search/matching.py lines 215-220):
similarity above 0.7, down-weighted by 0.7. -/
def countyScores (recordLocation criteriaLocation : Location) : List ℚ :=
  if strTruthy criteriaLocation.county && strTruthy recordLocation.county then
    let s := strSimilarity (criteriaLocation.county.getD "") (recordLocation.county.getD "")
    if 7/10 < s then [s * (7/10)] else []
  else []

/-- City sub-scores of _match_location (src/search/matching.py lines 223-228):
similarity above 0.7, down-weighted by 0.5. -/
def cityScores (recordLocation criteriaLocation : Location) : List ℚ :=
  if strTruthy criteriaLocation.city && strTruthy recordLocation.city then
    let s := strSimilarity (criteriaLocation.city.getD "") (recordLocation.city.getD "")
    if 7/10 < s then [s * (1/2)] else []
  else []

/-- MatchingEngine._match_location score component (src/search/matching.py lines
193-232): the average of the included state/county/city sub-scores, 0 if none. -/
def matchLocation (recordLocation criteriaLocation : Location) : ℚ :=
  pyAvg (stateScores recordLocation criteriaLocation ++
    countyScores recordLocation criteriaLocation ++
    cityScores recordLocation criteriaLocation)

/-- The per-criteria-mark best scores built by _match_distinguishing_marks
(src/search/matching.py lines 239-248): for each criteria mark, the best partial
similarity against all record marks (skipped when the record list is empty). -/
def markBestScores (recordMarks criteriaMarks : List String) : List ℚ :=
  (criteriaMarks.map (fun cm => recordMarks.map (fun rm => markSimilarity cm rm))).filterMap
    (fun ms => if ms = [] then none else some (ms.foldr max 0))

/-- MatchingEngine._match_distinguishing_marks (src/search/matching.py lines
234-250): 0 when either list is empty, else the average of the best scores. -/
def matchDistinguishingMarks (recordMarks criteriaMarks : List String) : ℚ :=
  if recordMarks = [] ∨ criteriaMarks = [] then 0
  else pyAvg (markBestScores recordMarks criteriaMarks)

/-- Height block of _match_physical_characteristics (src/search/matching.py lines
62-67): evaluated when either criteria height bound is truthy, recorded when the
score is positive. -/
def heightEntry (rpc cpc : PhysicalCharacteristics) : List (String × ℚ) :=
  if numTruthy cpc.height_min || numTruthy cpc.height_max then
    let s := matchHeightRange rpc cpc
    if 0 < s then [("height", s)] else []
  else []

/-- Weight block of _match_physical_characteristics (src/search/matching.py lines
69-74). -/
def weightEntry (rpc cpc : PhysicalCharacteristics) : List (String × ℚ) :=
  if numTruthy cpc.weight_min || numTruthy cpc.weight_max then
    let s := matchWeightRange rpc cpc
    if 0 < s then [("weight", s)] else []
  else []

/-- Race block of _match_physical_characteristics (src/search/matching.py lines
76-86): both sides present (enum members are always truthy), exact equality scores
1.0, else the fuzzy score when above 0.5. -/
def raceEntry (rpc cpc : PhysicalCharacteristics) : List (String × ℚ) :=
  match cpc.race, rpc.race with
  | some cr, some rr =>
    if cr = rr then [("race", 1)]
    else
      let s := fuzzyRaceMatch cr rr
      if 1/2 < s then [("race", s)] else []
  | _, _ => []

/-- Sex block of _match_physical_characteristics (src/search/matching.py lines
88-92): both sides present and equal scores 1.0. -/
def sexEntry (rpc cpc : PhysicalCharacteristics) : List (String × ℚ) :=
  match cpc.sex, rpc.sex with
  | some cs, some rs => if cs = rs then [("sex", 1)] else []
  | _, _ => []

/-- Age block of _match_physical_characteristics (src/search/matching.py lines
94-99). -/
def ageEntry (rpc cpc : PhysicalCharacteristics) : List (String × ℚ) :=
  if numTruthy cpc.age_min || numTruthy cpc.age_max then
    let s := matchAgeRange rpc cpc
    if 0 < s then [("age", s)] else []
  else []

/-- Distinguishing-marks block of _match_physical_characteristics
(src/search/matching.py lines 101-108): both lists non-empty, positive score. -/
def marksEntry (rpc cpc : PhysicalCharacteristics) : List (String × ℚ) :=
  if decide (cpc.distinguishing_marks ≠ []) && decide (rpc.distinguishing_marks ≠ []) then
    let s := matchDistinguishingMarks rpc.distinguishing_marks cpc.distinguishing_marks
    if 0 < s then [("distinguishing_marks", s)] else []
  else []

/-- The scores mapping built by _match_physical_characteristics
(src/search/matching.py lines 56-110), in insertion order. -/
def physScores (rpc cpc : PhysicalCharacteristics) : List (String × ℚ) :=
  heightEntry rpc cpc ++ weightEntry rpc cpc ++ raceEntry rpc cpc ++
    sexEntry rpc cpc ++ ageEntry rpc cpc ++ marksEntry rpc cpc

/-- The full scores mapping of calculate_match_score (src/search/matching.py lines
22-39). The criteria's physical_characteristics and location sub-objects are
dataclass instances, hence always truthy, so both blocks always run; the location
score is always inserted. -/
def allScores (record : PersonRecord) (criteria : SearchCriteria) : List (String × ℚ) :=
  physScores record.physical_characteristics criteria.physical_characteristics ++
    [("location", matchLocation record.location_found criteria.location)]

/-- The weight_config table of MatchingEngine.__init__ (src/search/matching.py
lines 10-18), looked up with dict.get(category, 0.1). -/
def weightConfig (category : String) : ℚ :=
  if category = "height" then 1/5
  else if category = "weight" then 1/5
  else if category = "race" then 3/20
  else if category = "sex" then 3/20
  else if category = "age" then 3/20
  else if category = "location" then 1/10
  else if category = "distinguishing_marks" then 1/20
  else 1/10

/-- The categories actually aggregated by calculate_match_score (src/search/matching.py
lines 45-49): only entries with a positive score. -/
def usedScores (record : PersonRecord) (criteria : SearchCriteria) : List (String × ℚ) :=
  (allScores record criteria).filter (fun p => decide (0 < p.2))

/-- total_weight of calculate_match_score: the sum of the weights actually used. -/
def usedWeight (record : PersonRecord) (criteria : SearchCriteria) : ℚ :=
  ((usedScores record criteria).map (fun p => weightConfig p.1)).sum

/-- total_score of calculate_match_score: the weighted sum of the used scores. -/
def weightedSum (record : PersonRecord) (criteria : SearchCriteria) : ℚ :=
  ((usedScores record criteria).map (fun p => p.2 * weightConfig p.1)).sum

/-- MatchingEngine.calculate_match_score confidence (src/search/matching.py lines
20-54): the weighted sum normalized by the weights actually used, 0 when no
category scored. -/
def calculateMatchScore (record : PersonRecord) (criteria : SearchCriteria) : ℚ :=
  if 0 < usedWeight record criteria then
    weightedSum record criteria / usedWeight record criteria
  else 0

/-- DatabaseInterface (src/database/base.py): an availability flag and a fallible
search; a raised exception is modelled as Except.error. -/
structure DatabaseInterface where
  is_available : Bool
  search : SearchCriteria → Except String (List PersonRecord)

/-- DatabaseManager (src/database/manager.py): the name → interface dict, as an
association list in insertion order with distinct names. -/
structure DatabaseManager where
  databases : List (String × DatabaseInterface)

/-- DatabaseManager.get_available_databases (src/database/manager.py lines 17-23). -/
def getAvailableDatabases (m : DatabaseManager) : List String :=
  (m.databases.filter (fun p => p.2.is_available)).map (fun p => p.1)

/-- Python's db_name in self.databases / self.databases[db_name] on the manager's
dict: the interface registered under a name, if any. -/
def lookupDatabase (m : DatabaseManager) (name : String) : Option DatabaseInterface :=
  (m.databases.find? (fun p => p.1 == name)).map (fun p => p.2)

/-- Source-selection logic of DatabaseManager.search_all (src/database/manager.py
lines 29-42): requested sources intersected with the available ones; if the
intersection is empty (or nothing was requested) the full available set is used. -/
def databasesToSearch (m : DatabaseManager) (criteria : SearchCriteria) : List String :=
  let availableDbs := getAvailableDatabases m
  if criteria.databases ≠ [] then
    let requestedAndAvailable :=
      criteria.databases.filter (fun db => decide (db ∈ availableDbs))
    if requestedAndAvailable ≠ [] then requestedAndAvailable else availableDbs
  else availableDbs

/-- One iteration of the fetch loop of DatabaseManager.search_all
(src/database/manager.py lines 44-51): an unregistered name contributes nothing,
and a source that raises contributes no records (the exception is caught and
printed, not re-raised). -/
def sourceRecords (m : DatabaseManager) (dbName : String) (criteria : SearchCriteria) :
    List PersonRecord :=
  match lookupDatabase m dbName with
  | none => []
  | some db =>
    match db.search criteria with
    | .ok records => records
    | .error _ => []

/-- The fetch loop of DatabaseManager.search_all (src/database/manager.py lines
44-52): each named source is searched in order and the record lists are
concatenated. -/
def fetchRecords (m : DatabaseManager) (names : List String) (criteria : SearchCriteria) :
    List PersonRecord :=
  (names.map (fun dbName => sourceRecords m dbName criteria)).flatten

/-- DatabaseManager.search_all (src/database/manager.py lines 25-52). -/
def searchAll (m : DatabaseManager) (criteria : SearchCriteria) : List PersonRecord :=
  fetchRecords m (databasesToSearch m criteria) criteria

/-- DatabaseManager.search_database (src/database/manager.py lines 54-59): unknown
names raise ValueError("Database {name} not found"); otherwise the source's search
runs unguarded, so its exceptions propagate. -/
def searchDatabase (m : DatabaseManager) (name : String) (criteria : SearchCriteria) :
    Except String (List PersonRecord) :=
  match lookupDatabase m name with
  | none => .error ("Database " ++ name ++ " not found")
  | some db => db.search criteria

/-- Stable descending insertion: a later-arriving result is placed after all
already-placed results with a greater-or-equal confidence. -/
def insertDesc (x : SearchResult) : List SearchResult → List SearchResult
  | [] => [x]
  | y :: ys =>
    if y.confidence_score ≤ x.confidence_score then x :: y :: ys
    else y :: insertDesc x ys

/-- Python's stable list.sort(key=confidence_score, reverse=True)
(src/search/engine.py lines 34 and 56): descending by confidence, ties keeping
arrival order. -/
def sortDesc : List SearchResult → List SearchResult
  | [] => []
  | x :: xs => insertDesc x (sortDesc xs)

/-- The scoring-and-threshold loop shared by SearchEngine.search and
SearchEngine.search_database (src/search/engine.py lines 21-31 and 44-54):
each record is scored and kept when the confidence reaches the threshold. -/
def scoreAndFilter (records : List PersonRecord) (criteria : SearchCriteria)
    (minConfidence : ℚ) : List SearchResult :=
  records.filterMap (fun record =>
    let c := calculateMatchScore record criteria
    if minConfidence ≤ c then some ⟨record, c⟩ else none)

/-- SearchEngine.search (src/search/engine.py lines 15-37): fetch from all selected
sources, score, threshold-filter, stable-sort descending, cap at maxResults.
The instance field min_confidence_threshold is passed explicitly. -/
def searchEngineSearch (m : DatabaseManager) (criteria : SearchCriteria)
    (minConfidence : ℚ) (maxResults : ℕ) : List SearchResult :=
  (sortDesc (scoreAndFilter (searchAll m criteria) criteria minConfidence)).take maxResults

/-- SearchEngine.search_database (src/search/engine.py lines 39-57): the same
pipeline on one named source; errors from the manager or the source propagate. -/
def searchEngineSearchDatabase (m : DatabaseManager) (name : String)
    (criteria : SearchCriteria) (minConfidence : ℚ) (maxResults : ℕ) :
    Except String (List SearchResult) :=
  (searchDatabase m name criteria).map (fun records =>
    (sortDesc (scoreAndFilter records criteria minConfidence)).take maxResults)

/-! Concrete fixtures used to instantiate theorems on closed inputs. -/

/-- A record carrying no scorable attributes (all optional fields defaulted). -/
def recBlank : PersonRecord :=
  { case_id := "c1", database_source := "Mock" }

/-- A record whose only scorable attribute is sex = female. -/
def recFemale : PersonRecord :=
  { case_id := "f1", database_source := "Mock",
    physical_characteristics := { sex := some .female } }

/-- Criteria that specify only sex = female. -/
def critFemale : SearchCriteria :=
  { physical_characteristics := { sex := some .female } }

/-- An available source that returns no records. -/
def dbOkEmpty : DatabaseInterface :=
  ⟨true, fun _ => .ok []⟩

/-- An available source that raises on every search. -/
def dbBoom : DatabaseInterface :=
  ⟨true, fun _ => .error "boom"⟩

/-- An available source returning the blank record. -/
def dbOneBlank : DatabaseInterface :=
  ⟨true, fun _ => .ok [recBlank]⟩

/-- An available source returning the female record. -/
def dbOneFemale : DatabaseInterface :=
  ⟨true, fun _ => .ok [recFemale]⟩

/-- A manager holding one source that returns the blank record. -/
def mgrOneBlank : DatabaseManager :=
  ⟨[("Mock", dbOneBlank)]⟩

/-- A manager holding one source that returns the female record. -/
def mgrOneFemale : DatabaseManager :=
  ⟨[("Mock", dbOneFemale)]⟩

/-- A manager holding one available source, registered as A, that raises. -/
def mgrBoom : DatabaseManager :=
  ⟨[("A", dbBoom)]⟩

/-- A manager holding one available empty source registered as A. -/
def mgrOkA : DatabaseManager :=
  ⟨[("A", dbOkEmpty)]⟩

/-- Criteria explicitly requesting only the unregistered source Z. -/
def critRequestZ : SearchCriteria :=
  { databases := ["Z"] }

/-- Criteria with every field defaulted (an empty query). -/
def critBlank : SearchCriteria := {}

/-! Helper lemmas about the string-similarity model. -/

theorem lcs_comm (xs ys : List Char) : lcs xs ys = lcs ys xs := by
  induction xs generalizing ys with
  | nil => cases ys <;> simp [lcs]
  | cons a as ih =>
    induction ys with
    | nil => simp [lcs]
    | cons b bs ihb =>
      by_cases h : a = b
      · subst h
        simp [lcs, ih bs]
      · have h' : ¬ b = a := fun hh => h hh.symm
        simp only [lcs, if_neg h, if_neg h']
        rw [ih (b :: bs), ihb, Nat.max_comm]

theorem lcs_le_left (xs ys : List Char) : lcs xs ys ≤ xs.length := by
  induction xs generalizing ys with
  | nil => cases ys <;> simp [lcs]
  | cons a as ih =>
    induction ys with
    | nil => simp [lcs]
    | cons b bs ihb =>
      by_cases h : a = b
      · simp only [lcs, if_pos h, List.length_cons]
        exact Nat.succ_le_succ (ih bs)
      · simp only [lcs, if_neg h, List.length_cons]
        exact max_le (le_trans (ih (b :: bs)) (Nat.le_succ _)) ihb

theorem lcs_le_right (xs ys : List Char) : lcs xs ys ≤ ys.length := by
  rw [lcs_comm]
  exact lcs_le_left ys xs

theorem ratioQ_nonneg (a b : List Char) : 0 ≤ ratioQ a b := by
  unfold ratioQ
  split
  · exact le_refl 0
  · positivity

theorem ratioQ_le_one (a b : List Char) : ratioQ a b ≤ 1 := by
  unfold ratioQ
  split
  · norm_num
  · next h =>
    rw [div_le_one (by exact_mod_cast Nat.pos_of_ne_zero h)]
    have h1 := lcs_le_left a b
    have h2 := lcs_le_right a b
    have h3 : 2 * lcs a b ≤ a.length + b.length := by omega
    exact_mod_cast h3

theorem ratioQ_comm (a b : List Char) : ratioQ a b = ratioQ b a := by
  unfold ratioQ
  rw [lcs_comm, Nat.add_comm a.length b.length]

theorem fuzzRatio_nonneg (a b : String) : 0 ≤ fuzzRatio a b := by
  unfold fuzzRatio
  split
  · exact le_refl 0
  · exact ratioQ_nonneg _ _

theorem fuzzRatio_le_one (a b : String) : fuzzRatio a b ≤ 1 := by
  unfold fuzzRatio
  split
  · norm_num
  · exact ratioQ_le_one _ _

theorem fuzzRatio_comm (a b : String) : fuzzRatio a b = fuzzRatio b a := by
  by_cases ha : a.data = [] <;> by_cases hb : b.data = [] <;>
    simp [fuzzRatio, ha, hb, ratioQ_comm a.data b.data]

theorem foldrMax_nonneg (l : List ℚ) : 0 ≤ l.foldr max 0 := by
  induction l with
  | nil => simp
  | cons x xs ih =>
    simp only [List.foldr]
    exact le_trans ih (le_max_right x _)

theorem foldrMax_le_one (l : List ℚ) (h : ∀ x ∈ l, x ≤ 1) : l.foldr max 0 ≤ 1 := by
  induction l with
  | nil => norm_num
  | cons x xs ih =>
    simp only [List.foldr]
    exact max_le (h x (by simp)) (ih fun y hy => h y (by simp [hy]))

theorem bestWindow_nonneg (s l : List Char) : 0 ≤ bestWindow s l :=
  foldrMax_nonneg _

theorem bestWindow_le_one (s l : List Char) : bestWindow s l ≤ 1 := by
  unfold bestWindow
  apply foldrMax_le_one
  intro x hx
  simp only [List.mem_map] at hx
  obtain ⟨i, -, rfl⟩ := hx
  exact ratioQ_le_one _ _

theorem bestWindow_eq_of_length_eq (s l : List Char) (h : s.length = l.length) :
    bestWindow s l = max (ratioQ s l) 0 := by
  unfold bestWindow
  have h1 : l.length - s.length + 1 = 1 := by omega
  have h2 : List.range 1 = [0] := rfl
  rw [h1, h2]
  simp only [List.map_cons, List.map_nil, List.drop_zero, List.foldr_cons, List.foldr_nil]
  rw [h, List.take_length]

theorem fuzzPartialRatio_nonneg (a b : String) : 0 ≤ fuzzPartialRatio a b := by
  unfold fuzzPartialRatio
  split
  · exact le_refl 0
  · split <;> exact bestWindow_nonneg _ _

theorem fuzzPartialRatio_le_one (a b : String) : fuzzPartialRatio a b ≤ 1 := by
  unfold fuzzPartialRatio
  split
  · norm_num
  · split <;> exact bestWindow_le_one _ _

theorem fuzzPartialRatio_comm (a b : String) :
    fuzzPartialRatio a b = fuzzPartialRatio b a := by
  unfold fuzzPartialRatio
  by_cases ha : a.data = []
  · simp [ha]
  · by_cases hb : b.data = []
    · simp [ha, hb]
    · simp only [ha, hb, or_self, false_or, or_false, if_false]
      rcases le_or_lt a.data.length b.data.length with hab | hab
      · rcases le_or_lt b.data.length a.data.length with hba | hba
        · have he : a.data.length = b.data.length := le_antisymm hab hba
          rw [if_pos hab, if_pos hba, bestWindow_eq_of_length_eq a.data b.data he,
            bestWindow_eq_of_length_eq b.data a.data he.symm, ratioQ_comm]
        · rw [if_pos hab, if_neg (not_le.2 hba)]
      · rw [if_neg (not_le.2 hab), if_pos (le_of_lt hab)]

theorem strSimilarity_nonneg (a b : String) : 0 ≤ strSimilarity a b :=
  fuzzRatio_nonneg _ _

theorem strSimilarity_le_one (a b : String) : strSimilarity a b ≤ 1 :=
  fuzzRatio_le_one _ _

theorem fuzzyRaceMatch_nonneg (r1 r2 : Race) : 0 ≤ fuzzyRaceMatch r1 r2 :=
  fuzzRatio_nonneg _ _

theorem fuzzyRaceMatch_le_one (r1 r2 : Race) : fuzzyRaceMatch r1 r2 ≤ 1 :=
  fuzzRatio_le_one _ _

theorem markSimilarity_nonneg (a b : String) : 0 ≤ markSimilarity a b :=
  fuzzPartialRatio_nonneg _ _

theorem markSimilarity_le_one (a b : String) : markSimilarity a b ≤ 1 :=
  fuzzPartialRatio_le_one _ _

theorem pyAvg_nonneg (l : List ℚ) (h : ∀ x ∈ l, 0 ≤ x) : 0 ≤ pyAvg l := by
  unfold pyAvg
  split
  · exact le_refl 0
  · exact div_nonneg (List.sum_nonneg h) (by positivity)

theorem pyAvg_le_one (l : List ℚ) (h : ∀ x ∈ l, x ≤ 1) : pyAvg l ≤ 1 := by
  unfold pyAvg
  split
  · norm_num
  · next hl =>
    have hpos : 0 < (l.length : ℚ) := by
      exact_mod_cast List.length_pos.2 hl
    rw [div_le_one hpos]
    have hs := List.sum_le_card_nsmul l 1 h
    simpa using hs

theorem rangeScore_nonneg (v cmin cmax : Option ℚ) (d tol : ℚ) :
    0 ≤ rangeScore v cmin cmax d tol := by
  cases v with
  | none => simp [rangeScore]
  | some h =>
    simp only [rangeScore]
    split_ifs <;> norm_num

theorem rangeScore_le_one (v cmin cmax : Option ℚ) (d tol : ℚ) (htol : 0 < tol) :
    rangeScore v cmin cmax d tol ≤ 1 := by
  cases v with
  | none => simp [rangeScore]
  | some h =>
    simp only [rangeScore]
    by_cases h0 : h = 0
    · simp [h0]
    · rw [if_neg h0]
      by_cases hin : orDefaultNum cmin 0 ≤ h ∧ h ≤ orDefaultNum cmax d
      · rw [if_pos hin]
      · rw [if_neg hin]
        have hdist : 0 ≤ (if h < orDefaultNum cmin 0 then orDefaultNum cmin 0 - h
            else h - orDefaultNum cmax d) := by
          push_neg at hin
          split_ifs with hlt
          · linarith
          · have hgt := hin (le_of_not_lt hlt)
            linarith
        by_cases hd : (if h < orDefaultNum cmin 0 then orDefaultNum cmin 0 - h
            else h - orDefaultNum cmax d) ≤ tol
        · rw [if_pos hd]
          refine max_le (by norm_num) ?_
          have hq : 0 ≤ (if h < orDefaultNum cmin 0 then orDefaultNum cmin 0 - h
              else h - orDefaultNum cmax d) / tol := div_nonneg hdist (le_of_lt htol)
          linarith
        · rw [if_neg hd]
          norm_num

theorem locScores_bounds (rl cl : Location) :
    ∀ x ∈ stateScores rl cl ++ countyScores rl cl ++ cityScores rl cl,
      0 ≤ x ∧ x ≤ 1 := by
  intro x hx
  simp only [List.mem_append] at hx
  rcases hx with (hx | hx) | hx
  · simp only [stateScores] at hx
    split_ifs at hx with h1 h2 h3
    · simp only [List.mem_singleton] at hx
      rw [hx]
      norm_num
    · simp only [List.mem_singleton] at hx
      rw [hx]
      exact ⟨strSimilarity_nonneg _ _, strSimilarity_le_one _ _⟩
    · simp at hx
    · simp at hx
  · simp only [countyScores] at hx
    split_ifs at hx with h1 h2
    · simp only [List.mem_singleton] at hx
      rw [hx]
      have hs0 := strSimilarity_nonneg (cl.county.getD "") (rl.county.getD "")
      have hs1 := strSimilarity_le_one (cl.county.getD "") (rl.county.getD "")
      constructor
      · nlinarith
      · nlinarith
    · simp at hx
    · simp at hx
  · simp only [cityScores] at hx
    split_ifs at hx with h1 h2
    · simp only [List.mem_singleton] at hx
      rw [hx]
      have hs0 := strSimilarity_nonneg (cl.city.getD "") (rl.city.getD "")
      have hs1 := strSimilarity_le_one (cl.city.getD "") (rl.city.getD "")
      constructor
      · nlinarith
      · nlinarith
    · simp at hx
    · simp at hx

theorem matchLocation_nonneg (rl cl : Location) : 0 ≤ matchLocation rl cl :=
  pyAvg_nonneg _ (fun x hx => (locScores_bounds rl cl x hx).1)

theorem matchLocation_le_one (rl cl : Location) : matchLocation rl cl ≤ 1 :=
  pyAvg_le_one _ (fun x hx => (locScores_bounds rl cl x hx).2)

theorem markBestScores_bounds (rm cm : List String) :
    ∀ x ∈ markBestScores rm cm, 0 ≤ x ∧ x ≤ 1 := by
  intro x hx
  unfold markBestScores at hx
  simp only [List.mem_filterMap, List.mem_map] at hx
  obtain ⟨ms, ⟨c, -, rfl⟩, hsome⟩ := hx
  split_ifs at hsome with hnil
  have hx' : (rm.map fun r => markSimilarity c r).foldr max 0 = x :=
    Option.some.inj hsome
  constructor
  · rw [← hx']
    exact foldrMax_nonneg _
  · rw [← hx']
    apply foldrMax_le_one
    intro y hy
    simp only [List.mem_map] at hy
    obtain ⟨r, -, rfl⟩ := hy
    exact markSimilarity_le_one _ _

theorem matchDistinguishingMarks_nonneg (rm cm : List String) :
    0 ≤ matchDistinguishingMarks rm cm := by
  unfold matchDistinguishingMarks
  split
  · exact le_refl 0
  · exact pyAvg_nonneg _ (fun x hx => (markBestScores_bounds rm cm x hx).1)

theorem matchDistinguishingMarks_le_one (rm cm : List String) :
    matchDistinguishingMarks rm cm ≤ 1 := by
  unfold matchDistinguishingMarks
  split
  · norm_num
  · exact pyAvg_le_one _ (fun x hx => (markBestScores_bounds rm cm x hx).2)

theorem heightEntry_le_one (rpc cpc : PhysicalCharacteristics) :
    ∀ p ∈ heightEntry rpc cpc, p.2 ≤ 1 := by
  intro p hp
  simp only [heightEntry] at hp
  split_ifs at hp with h1 h2
  · simp only [List.mem_singleton] at hp
    rw [hp]
    exact rangeScore_le_one _ _ _ _ _ (by norm_num)
  · simp at hp
  · simp at hp

theorem weightEntry_le_one (rpc cpc : PhysicalCharacteristics) :
    ∀ p ∈ weightEntry rpc cpc, p.2 ≤ 1 := by
  intro p hp
  simp only [weightEntry] at hp
  split_ifs at hp with h1 h2
  · simp only [List.mem_singleton] at hp
    rw [hp]
    exact rangeScore_le_one _ _ _ _ _ (by norm_num)
  · simp at hp
  · simp at hp

theorem raceEntry_le_one (rpc cpc : PhysicalCharacteristics) :
    ∀ p ∈ raceEntry rpc cpc, p.2 ≤ 1 := by
  intro p hp
  simp only [raceEntry] at hp
  split at hp
  · split_ifs at hp with h1 h2
    · simp only [List.mem_singleton] at hp
      rw [hp]
    · simp only [List.mem_singleton] at hp
      rw [hp]
      exact fuzzyRaceMatch_le_one _ _
    · simp at hp
  · simp at hp

theorem sexEntry_le_one (rpc cpc : PhysicalCharacteristics) :
    ∀ p ∈ sexEntry rpc cpc, p.2 ≤ 1 := by
  intro p hp
  simp only [sexEntry] at hp
  split at hp
  · split_ifs at hp with h1
    · simp only [List.mem_singleton] at hp
      rw [hp]
    · simp at hp
  · simp at hp

theorem ageEntry_le_one (rpc cpc : PhysicalCharacteristics) :
    ∀ p ∈ ageEntry rpc cpc, p.2 ≤ 1 := by
  intro p hp
  simp only [ageEntry] at hp
  split_ifs at hp with h1 h2
  · simp only [List.mem_singleton] at hp
    rw [hp]
    exact rangeScore_le_one _ _ _ _ _ (by norm_num)
  · simp at hp
  · simp at hp

theorem marksEntry_le_one (rpc cpc : PhysicalCharacteristics) :
    ∀ p ∈ marksEntry rpc cpc, p.2 ≤ 1 := by
  intro p hp
  simp only [marksEntry] at hp
  split_ifs at hp with h1 h2
  · simp only [List.mem_singleton] at hp
    rw [hp]
    exact matchDistinguishingMarks_le_one _ _
  · simp at hp
  · simp at hp

theorem allScores_le_one (record : PersonRecord) (criteria : SearchCriteria) :
    ∀ p ∈ allScores record criteria, p.2 ≤ 1 := by
  intro p hp
  simp only [allScores] at hp
  rcases List.mem_append.1 hp with hp' | hp'
  · simp only [physScores, List.mem_append] at hp'
    rcases hp' with ((((hp2 | hp2) | hp2) | hp2) | hp2) | hp2
    · exact heightEntry_le_one _ _ _ hp2
    · exact weightEntry_le_one _ _ _ hp2
    · exact raceEntry_le_one _ _ _ hp2
    · exact sexEntry_le_one _ _ _ hp2
    · exact ageEntry_le_one _ _ _ hp2
    · exact marksEntry_le_one _ _ _ hp2
  · simp only [List.mem_singleton] at hp'
    rw [hp']
    exact matchLocation_le_one _ _

theorem weightConfig_pos (category : String) : 0 < weightConfig category := by
  unfold weightConfig
  split_ifs <;> norm_num

theorem usedScores_pos (record : PersonRecord) (criteria : SearchCriteria) :
    ∀ p ∈ usedScores record criteria, 0 < p.2 := by
  intro p hp
  simp only [usedScores, List.mem_filter] at hp
  exact of_decide_eq_true hp.2

theorem usedScores_sub_allScores (record : PersonRecord) (criteria : SearchCriteria) :
    ∀ p ∈ usedScores record criteria, p ∈ allScores record criteria := by
  intro p hp
  exact (List.mem_filter.1 hp).1

theorem weightedSum_nonneg (record : PersonRecord) (criteria : SearchCriteria) :
    0 ≤ weightedSum record criteria := by
  unfold weightedSum
  apply List.sum_nonneg
  intro x hx
  simp only [List.mem_map] at hx
  obtain ⟨p, hp, rfl⟩ := hx
  exact mul_nonneg (le_of_lt (usedScores_pos _ _ p hp)) (le_of_lt (weightConfig_pos _))

theorem weightedSum_le_usedWeight (record : PersonRecord) (criteria : SearchCriteria) :
    weightedSum record criteria ≤ usedWeight record criteria := by
  unfold weightedSum usedWeight
  apply List.sum_le_sum
  intro p hp
  have h1 : p.2 ≤ 1 := allScores_le_one _ _ p (usedScores_sub_allScores _ _ p hp)
  have hw := weightConfig_pos p.1
  nlinarith

theorem calculateMatchScore_nonneg (record : PersonRecord) (criteria : SearchCriteria) :
    0 ≤ calculateMatchScore record criteria := by
  unfold calculateMatchScore
  split
  · next h => exact div_nonneg (weightedSum_nonneg _ _) (le_of_lt h)
  · exact le_refl 0

theorem calculateMatchScore_le_one (record : PersonRecord) (criteria : SearchCriteria) :
    calculateMatchScore record criteria ≤ 1 := by
  unfold calculateMatchScore
  split
  · next h =>
    rw [div_le_one h]
    exact weightedSum_le_usedWeight _ _
  · norm_num

theorem insertDesc_perm (x : SearchResult) (l : List SearchResult) :
    List.Perm (insertDesc x l) (x :: l) := by
  induction l with
  | nil => exact List.Perm.refl _
  | cons y ys ih =>
    simp only [insertDesc]
    split_ifs with h
    · exact List.Perm.refl _
    · exact (ih.cons y).trans (List.Perm.swap x y ys)

theorem sortDesc_perm (l : List SearchResult) : List.Perm (sortDesc l) l := by
  induction l with
  | nil => exact List.Perm.refl _
  | cons x xs ih => exact (insertDesc_perm x (sortDesc xs)).trans (ih.cons x)

theorem insertDesc_pairwise (x : SearchResult) (l : List SearchResult)
    (hl : l.Pairwise (fun a b => b.confidence_score ≤ a.confidence_score)) :
    (insertDesc x l).Pairwise (fun a b => b.confidence_score ≤ a.confidence_score) := by
  induction l with
  | nil => simp [insertDesc]
  | cons y ys ih =>
    simp only [insertDesc]
    split_ifs with h
    · refine List.Pairwise.cons ?_ hl
      intro z hz
      rcases List.mem_cons.1 hz with rfl | hz'
      · exact h
      · exact le_trans (List.rel_of_pairwise_cons hl hz') h
    · have hys := List.pairwise_cons.1 hl
      refine List.Pairwise.cons ?_ (ih hys.2)
      intro z hz
      have hz' : z ∈ x :: ys := (insertDesc_perm x ys).mem_iff.1 hz
      rcases List.mem_cons.1 hz' with rfl | hz''
      · exact le_of_not_le h
      · exact hys.1 z hz''

theorem sortDesc_sorted (l : List SearchResult) :
    (sortDesc l).Pairwise (fun a b => b.confidence_score ≤ a.confidence_score) := by
  induction l with
  | nil => simp [sortDesc]
  | cons x xs ih => exact insertDesc_pairwise x _ ih

theorem insertDesc_filter (x : SearchResult) (s : List SearchResult) (q : ℚ) :
    (insertDesc x s).filter (fun r => decide (r.confidence_score = q)) =
      if x.confidence_score = q then
        x :: s.filter (fun r => decide (r.confidence_score = q))
      else s.filter (fun r => decide (r.confidence_score = q)) := by
  induction s with
  | nil => by_cases hx : x.confidence_score = q <;> simp [insertDesc, hx]
  | cons y ys ih =>
    by_cases hle : y.confidence_score ≤ x.confidence_score
    · simp only [insertDesc, if_pos hle]
      by_cases hx : x.confidence_score = q <;> simp [hx, List.filter_cons]
    · simp only [insertDesc, if_neg hle, List.filter_cons, ih]
      by_cases hy : y.confidence_score = q
      · have hxq : ¬ x.confidence_score = q := by
          intro hh
          apply hle
          rw [hy, hh]
        simp [hy, hxq]
      · by_cases hx : x.confidence_score = q <;> simp [hy, hx]

theorem sortDesc_filter (l : List SearchResult) (q : ℚ) :
    (sortDesc l).filter (fun r => decide (r.confidence_score = q)) =
      l.filter (fun r => decide (r.confidence_score = q)) := by
  induction l with
  | nil => rfl
  | cons x xs ih =>
    simp only [sortDesc, insertDesc_filter, ih]
    by_cases hx : x.confidence_score = q <;> simp [hx, List.filter_cons]

theorem mem_scoreAndFilter {records : List PersonRecord} {criteria : SearchCriteria}
    {t : ℚ} {res : SearchResult} (h : res ∈ scoreAndFilter records criteria t) :
    ∃ record ∈ records, res = ⟨record, calculateMatchScore record criteria⟩ ∧
      t ≤ calculateMatchScore record criteria := by
  unfold scoreAndFilter at h
  simp only [List.mem_filterMap] at h
  obtain ⟨record, hrec, hsome⟩ := h
  split_ifs at hsome with ht
  exact ⟨record, hrec, (Option.some.inj hsome).symm, ht⟩

theorem mem_searchPipeline {records : List PersonRecord} {criteria : SearchCriteria}
    {t : ℚ} {k : ℕ} {res : SearchResult}
    (h : res ∈ (sortDesc (scoreAndFilter records criteria t)).take k) :
    ∃ record ∈ records, res = ⟨record, calculateMatchScore record criteria⟩ ∧
      t ≤ calculateMatchScore record criteria := by
  have h1 : res ∈ sortDesc (scoreAndFilter records criteria t) :=
    (List.take_sublist k _).subset h
  exact mem_scoreAndFilter ((sortDesc_perm _).mem_iff.1 h1)

theorem scoreAndFilter_zero (records : List PersonRecord) (criteria : SearchCriteria) :
    scoreAndFilter records criteria 0 =
      records.map (fun record => ⟨record, calculateMatchScore record criteria⟩) := by
  induction records with
  | nil => rfl
  | cons r rs ih =>
    simp only [scoreAndFilter, List.filterMap_cons, List.map_cons] at ih ⊢
    rw [if_pos (calculateMatchScore_nonneg r criteria)]
    simp [ih]

/-! The claims. -/

/-- C1: for every person record and every search criteria, the confidence returned by
calculate_match_score — and hence every confidence_score in the lists returned by
search and search_database — satisfies 0.0 ≤ confidence ≤ 1.0. -/
theorem C1_confidence_bounds :
    (∀ (record : PersonRecord) (criteria : SearchCriteria),
      0 ≤ calculateMatchScore record criteria ∧ calculateMatchScore record criteria ≤ 1) ∧
    (∀ (m : DatabaseManager) (criteria : SearchCriteria) (t : ℚ) (k : ℕ),
      ∀ res ∈ searchEngineSearch m criteria t k,
        0 ≤ res.confidence_score ∧ res.confidence_score ≤ 1) ∧
    (∀ (m : DatabaseManager) (name : String) (criteria : SearchCriteria) (t : ℚ) (k : ℕ)
      (l : List SearchResult),
      searchEngineSearchDatabase m name criteria t k = .ok l →
      ∀ res ∈ l, 0 ≤ res.confidence_score ∧ res.confidence_score ≤ 1) := by
  refine ⟨fun record criteria =>
    ⟨calculateMatchScore_nonneg _ _, calculateMatchScore_le_one _ _⟩, ?_, ?_⟩
  · intro m criteria t k res hres
    obtain ⟨record, -, rfl, -⟩ := mem_searchPipeline hres
    exact ⟨calculateMatchScore_nonneg _ _, calculateMatchScore_le_one _ _⟩
  · intro m name criteria t k l hl res hres
    unfold searchEngineSearchDatabase searchDatabase at hl
    rcases hfind : lookupDatabase m name with _ | db
    · rw [hfind] at hl
      simp [Except.map] at hl
    · rw [hfind] at hl
      dsimp only at hl
      cases hs : db.search criteria with
      | error e =>
        rw [hs] at hl
        simp [Except.map] at hl
      | ok records =>
        rw [hs] at hl
        simp only [Except.map, Except.ok.injEq] at hl
        subst hl
        obtain ⟨record, -, rfl, -⟩ := mem_searchPipeline hres
        exact ⟨calculateMatchScore_nonneg _ _, calculateMatchScore_le_one _ _⟩

/-- Witness for C1: the bounds hold for the concrete result returned by a search over
a one-source manager whose record matches the sex-only criteria. -/
theorem C1_confidence_bounds_witness :
    0 ≤ (⟨recFemale, 1⟩ : SearchResult).confidence_score ∧
      (⟨recFemale, 1⟩ : SearchResult).confidence_score ≤ 1 :=
  C1_confidence_bounds.2.1 mgrOneFemale critFemale 0 50 ⟨recFemale, 1⟩ (by
    simp [searchEngineSearch, searchAll, databasesToSearch, getAvailableDatabases,
      sourceRecords, fetchRecords, lookupDatabase, mgrOneFemale, dbOneFemale, recFemale, critFemale,
      scoreAndFilter, calculateMatchScore, usedWeight, weightedSum, usedScores, allScores,
      physScores, heightEntry, weightEntry, raceEntry, sexEntry, ageEntry, marksEntry,
      matchLocation, stateScores, countyScores, cityScores, pyAvg, numTruthy, strTruthy,
      weightConfig, sortDesc, insertDesc])

/-- C2: a query specifying only sex = female scores exactly 1.0 against any record
whose sex is female; the final confidence is the weighted sum over the categories
actually scored divided by the sum of their weights, and 0.0 when no category was
evaluable. -/
theorem C2_sex_only_female :
    (∀ (record : PersonRecord) (criteria : SearchCriteria),
      criteria.physical_characteristics = { sex := some Sex.female } →
      criteria.location = {} →
      record.physical_characteristics.sex = some Sex.female →
      calculateMatchScore record criteria = 1) ∧
    (∀ (record : PersonRecord) (criteria : SearchCriteria),
      0 < usedWeight record criteria →
        calculateMatchScore record criteria =
          weightedSum record criteria / usedWeight record criteria) ∧
    (∀ (record : PersonRecord) (criteria : SearchCriteria),
      usedWeight record criteria = 0 → calculateMatchScore record criteria = 0) := by
  refine ⟨?_, ?_, ?_⟩
  · intro record criteria hpc hloc hsex
    simp [calculateMatchScore, usedWeight, weightedSum, usedScores, allScores, physScores,
      heightEntry, weightEntry, raceEntry, sexEntry, ageEntry, marksEntry, hpc, hloc, hsex,
      matchLocation, stateScores, countyScores, cityScores, pyAvg, numTruthy, strTruthy,
      weightConfig]
  · intro record criteria h
    unfold calculateMatchScore
    rw [if_pos h]
  · intro record criteria h
    unfold calculateMatchScore
    rw [h]
    norm_num

/-- Witness for C2: evaluated on the concrete sex-only criteria and female record. -/
theorem C2_sex_only_female_witness : calculateMatchScore recFemale critFemale = 1 :=
  C2_sex_only_female.1 recFemale critFemale rfl rfl rfl

/-- C5: the list returned by search is sorted in non-increasing confidence order,
and the sort is stable — for every confidence value, the returned results with that
confidence form a prefix (hence preserve the relative order) of the
threshold-surviving results in arrival order. -/
theorem C5_sorted_and_stable :
    ∀ (m : DatabaseManager) (criteria : SearchCriteria) (t : ℚ) (k : ℕ),
      (searchEngineSearch m criteria t k).Pairwise
        (fun a b => b.confidence_score ≤ a.confidence_score) ∧
      ∀ q : ℚ,
        List.IsPrefix
          ((searchEngineSearch m criteria t k).filter
            (fun r => decide (r.confidence_score = q)))
          ((scoreAndFilter (searchAll m criteria) criteria t).filter
            (fun r => decide (r.confidence_score = q))) := by
  intro m criteria t k
  constructor
  · exact (sortDesc_sorted _).sublist (List.take_sublist _ _)
  · intro q
    have hpre := List.take_prefix k (sortDesc (scoreAndFilter (searchAll m criteria) criteria t))
    have hf := hpre.filter (fun r => decide (r.confidence_score = q))
    rw [sortDesc_filter] at hf
    exact hf

/-- C10: every fuzzy string-similarity function used by the scorers — the base ratio,
the partial-containment ratio, the location state/county/city similarity, the race
label similarity and the marks similarity — is symmetric in its two arguments. -/
theorem C10_similarity_symmetric :
    (∀ a b : String, fuzzRatio a b = fuzzRatio b a) ∧
    (∀ a b : String, fuzzPartialRatio a b = fuzzPartialRatio b a) ∧
    (∀ a b : String, strSimilarity a b = strSimilarity b a) ∧
    (∀ r1 r2 : Race, fuzzyRaceMatch r1 r2 = fuzzyRaceMatch r2 r1) ∧
    (∀ a b : String, markSimilarity a b = markSimilarity b a) :=
  ⟨fuzzRatio_comm, fuzzPartialRatio_comm,
    fun _ _ => fuzzRatio_comm _ _, fun _ _ => fuzzRatio_comm _ _,
    fun _ _ => fuzzPartialRatio_comm _ _⟩

theorem flatten_map_single {α : Type} (T : List String) (n : String) (R : List α) :
    (T.map (fun db => if db = n then R else [])).flatten =
      (List.replicate (T.count n) R).flatten := by
  induction T with
  | nil => rfl
  | cons d ds ih =>
    by_cases h : d = n
    · subst h
      simp only [List.map_cons, List.flatten_cons, List.count_cons_self,
        List.replicate_succ, ih]
      simp
    · have h2 : n ≠ d := fun hh => h hh.symm
      simp only [List.map_cons, List.flatten_cons, if_neg h, List.count_cons_of_ne h2, ih,
        List.nil_append]

theorem selection_count (D A : List String) (n : String) (hnA : n ∈ A)
    (hcount : A.count n = 1)
    (hmem : n ∈ (if D ≠ [] then
        (if D.filter (fun db => decide (db ∈ A)) ≠ [] then
          D.filter (fun db => decide (db ∈ A)) else A) else A)) :
    (if D ≠ [] then
        (if D.filter (fun db => decide (db ∈ A)) ≠ [] then
          D.filter (fun db => decide (db ∈ A)) else A) else A).count n =
      (if D ≠ [] then
        (if D.filter (fun db => decide (db ∈ [n])) ≠ [] then
          D.filter (fun db => decide (db ∈ [n])) else [n]) else [n]).count n := by
  by_cases hD : D = []
  · rw [if_neg (by simp [hD]), if_neg (by simp [hD]), hcount]
    simp
  · rw [if_pos hD, if_pos hD]
    rw [if_pos hD] at hmem
    have hFn : (D.filter (fun db => decide (db ∈ A))).count n = D.count n :=
      List.count_filter (by simp [hnA])
    have hF'n : (D.filter (fun db => decide (db ∈ [n]))).count n = D.count n :=
      List.count_filter (by simp)
    by_cases hF : D.filter (fun db => decide (db ∈ A)) = []
    · rw [if_neg (not_not_intro hF)]
      have hnD : n ∉ D := by
        intro hmemD
        exact List.ne_nil_of_mem (List.mem_filter.2 ⟨hmemD, by simp [hnA]⟩) hF
      have hF' : D.filter (fun db => decide (db ∈ [n])) = [] := by
        rw [List.filter_eq_nil_iff]
        intro x hx
        simp only [decide_eq_true_eq, List.mem_singleton]
        intro hxn
        exact hnD (hxn ▸ hx)
      rw [if_neg (not_not_intro hF'), hcount]
      simp
    · rw [if_pos hF]
      rw [if_pos hF] at hmem
      have hnD : n ∈ D := (List.mem_filter.1 hmem).1
      have hF' : D.filter (fun db => decide (db ∈ [n])) ≠ [] :=
        List.ne_nil_of_mem (List.mem_filter.2 ⟨hnD, by simp⟩)
      rw [if_pos hF', hFn, hF'n]

theorem fetchRecords_congr (m : DatabaseManager) (names : List String)
    (criteria : SearchCriteria) (g : String → List PersonRecord)
    (h : ∀ db, sourceRecords m db criteria = g db) :
    fetchRecords m names criteria = (names.map g).flatten := by
  unfold fetchRecords
  congr 1
  exact List.map_congr_left fun db _ => h db

/-- C3: in a search that consults both of a manager's two available sources (the
default criteria, an empty source list, or any request naming both), a source that
raises contributes nothing — the returned, threshold-filtered, sorted, capped list
equals the one produced by the manager holding only the other source, whichever of
the two registered sources failed; and by construction of the total model the
caught exception never reaches the caller of search. -/
theorem C3_source_failure_isolated :
    ∀ (n1 n2 : String) (s1 s2 : DatabaseInterface) (criteria : SearchCriteria)
      (t : ℚ) (k : ℕ) (e : String),
      n1 ≠ n2 → s1.is_available = true → s2.is_available = true →
      n1 ∈ databasesToSearch ⟨[(n1, s1), (n2, s2)]⟩ criteria →
      n2 ∈ databasesToSearch ⟨[(n1, s1), (n2, s2)]⟩ criteria →
      (s2.search criteria = .error e →
        searchEngineSearch ⟨[(n1, s1), (n2, s2)]⟩ criteria t k =
          searchEngineSearch ⟨[(n1, s1)]⟩ criteria t k) ∧
      (s1.search criteria = .error e →
        searchEngineSearch ⟨[(n1, s1), (n2, s2)]⟩ criteria t k =
          searchEngineSearch ⟨[(n2, s2)]⟩ criteria t k) := by
  intro n1 n2 s1 s2 criteria t k e hne ha1 ha2 hm1 hm2
  have hA2 : getAvailableDatabases ⟨[(n1, s1), (n2, s2)]⟩ = [n1, n2] := by
    simp [getAvailableDatabases, ha1, ha2]
  have hA1 : getAvailableDatabases ⟨[(n1, s1)]⟩ = [n1] := by
    simp [getAvailableDatabases, ha1]
  have hA1' : getAvailableDatabases ⟨[(n2, s2)]⟩ = [n2] := by
    simp [getAvailableDatabases, ha2]
  constructor
  · intro herr
    have hg2 : ∀ db, sourceRecords ⟨[(n1, s1), (n2, s2)]⟩ db criteria =
        (if db = n1 then sourceRecords ⟨[(n1, s1), (n2, s2)]⟩ n1 criteria else []) := by
      intro db
      by_cases h1 : db = n1
      · rw [if_pos h1, h1]
      · rw [if_neg h1]
        by_cases h2 : db = n2
        · subst h2
          simp [sourceRecords, lookupDatabase, hne, herr]
        · simp [sourceRecords, lookupDatabase, Ne.symm h1, Ne.symm h2]
    have hg1 : ∀ db, sourceRecords ⟨[(n1, s1)]⟩ db criteria =
        (if db = n1 then sourceRecords ⟨[(n1, s1), (n2, s2)]⟩ n1 criteria else []) := by
      intro db
      by_cases h1 : db = n1
      · rw [if_pos h1, h1]
        simp [sourceRecords, lookupDatabase]
      · rw [if_neg h1]
        simp [sourceRecords, lookupDatabase, Ne.symm h1]
    have hrec2 : searchAll ⟨[(n1, s1), (n2, s2)]⟩ criteria =
        (List.replicate ((databasesToSearch ⟨[(n1, s1), (n2, s2)]⟩ criteria).count n1)
          (sourceRecords ⟨[(n1, s1), (n2, s2)]⟩ n1 criteria)).flatten := by
      unfold searchAll
      rw [fetchRecords_congr _ _ _ _ hg2, flatten_map_single]
    have hrec1 : searchAll ⟨[(n1, s1)]⟩ criteria =
        (List.replicate ((databasesToSearch ⟨[(n1, s1)]⟩ criteria).count n1)
          (sourceRecords ⟨[(n1, s1), (n2, s2)]⟩ n1 criteria)).flatten := by
      unfold searchAll
      rw [fetchRecords_congr _ _ _ _ hg1, flatten_map_single]
    have hcnt : (databasesToSearch ⟨[(n1, s1), (n2, s2)]⟩ criteria).count n1 =
        (databasesToSearch ⟨[(n1, s1)]⟩ criteria).count n1 := by
      have hmem := hm1
      simp only [databasesToSearch, hA2] at hmem
      simp only [databasesToSearch, hA2, hA1]
      exact selection_count criteria.databases [n1, n2] n1 (by simp)
        (by rw [List.count_cons_self, List.count_cons_of_ne hne, List.count_nil]) hmem
    unfold searchEngineSearch
    rw [hrec2, hrec1, hcnt]
  · intro herr
    have hg2 : ∀ db, sourceRecords ⟨[(n1, s1), (n2, s2)]⟩ db criteria =
        (if db = n2 then sourceRecords ⟨[(n1, s1), (n2, s2)]⟩ n2 criteria else []) := by
      intro db
      by_cases h2 : db = n2
      · rw [if_pos h2, h2]
      · rw [if_neg h2]
        by_cases h1 : db = n1
        · subst h1
          simp [sourceRecords, lookupDatabase, herr]
        · simp [sourceRecords, lookupDatabase, Ne.symm h1, Ne.symm h2]
    have hg1 : ∀ db, sourceRecords ⟨[(n2, s2)]⟩ db criteria =
        (if db = n2 then sourceRecords ⟨[(n1, s1), (n2, s2)]⟩ n2 criteria else []) := by
      intro db
      by_cases h2 : db = n2
      · rw [if_pos h2, h2]
        simp [sourceRecords, lookupDatabase, hne]
      · rw [if_neg h2]
        simp [sourceRecords, lookupDatabase, Ne.symm h2]
    have hrec2 : searchAll ⟨[(n1, s1), (n2, s2)]⟩ criteria =
        (List.replicate ((databasesToSearch ⟨[(n1, s1), (n2, s2)]⟩ criteria).count n2)
          (sourceRecords ⟨[(n1, s1), (n2, s2)]⟩ n2 criteria)).flatten := by
      unfold searchAll
      rw [fetchRecords_congr _ _ _ _ hg2, flatten_map_single]
    have hrec1 : searchAll ⟨[(n2, s2)]⟩ criteria =
        (List.replicate ((databasesToSearch ⟨[(n2, s2)]⟩ criteria).count n2)
          (sourceRecords ⟨[(n1, s1), (n2, s2)]⟩ n2 criteria)).flatten := by
      unfold searchAll
      rw [fetchRecords_congr _ _ _ _ hg1, flatten_map_single]
    have hcnt : (databasesToSearch ⟨[(n1, s1), (n2, s2)]⟩ criteria).count n2 =
        (databasesToSearch ⟨[(n2, s2)]⟩ criteria).count n2 := by
      have hmem := hm2
      simp only [databasesToSearch, hA2] at hmem
      simp only [databasesToSearch, hA2, hA1']
      exact selection_count criteria.databases [n1, n2] n2 (by simp)
        (by rw [List.count_cons_of_ne (Ne.symm hne), List.count_cons_self, List.count_nil]) hmem
    unfold searchEngineSearch
    rw [hrec2, hrec1, hcnt]

/-- Witness for C3: concrete two-source managers over an all-sources search; the
second-registered source failing (left) and the first-registered source failing
(right) both reduce to the single healthy source. -/
theorem C3_source_failure_isolated_witness :
    (searchEngineSearch ⟨[("A", dbOkEmpty), ("B", dbBoom)]⟩ critBlank (3/10) 50 =
      searchEngineSearch ⟨[("A", dbOkEmpty)]⟩ critBlank (3/10) 50) ∧
    (searchEngineSearch ⟨[("C", dbBoom), ("D", dbOkEmpty)]⟩ critBlank (3/10) 50 =
      searchEngineSearch ⟨[("D", dbOkEmpty)]⟩ critBlank (3/10) 50) :=
  ⟨(C3_source_failure_isolated "A" "B" dbOkEmpty dbBoom critBlank (3/10) 50 "boom"
      (by decide) rfl rfl (by decide) (by decide)).1 rfl,
    (C3_source_failure_isolated "C" "D" dbBoom dbOkEmpty critBlank (3/10) 50 "boom"
      (by decide) rfl rfl (by decide) (by decide)).2 rfl⟩

/-- C4 counterexample: the record range [101, 101] has midpoint 101, equal to the
query's supplied bound height_min = 101; yet because the absent height_max defaults
to the ceiling 100, the score is 2/3, not 1.0. -/
theorem C4_counterexample :
    getHeightValue { height_min := some 101, height_max := some 101 } = some 101 ∧
      matchHeightRange { height_min := some 101, height_max := some 101 }
        { height_min := some 101 } = 2/3 ∧
      (2 : ℚ)/3 ≠ 1 := by
  refine ⟨?_, ?_, by norm_num⟩
  · norm_num [getHeightValue, collapseRange, numTruthy, pyOrNum]
  · norm_num [matchHeightRange, getHeightValue, collapseRange, numTruthy, pyOrNum,
      rangeScore, orDefaultNum]

/-- C4 amended: query height range [64, 66] against record range [66, 68] scores
exactly 1 − 1/3 = 2/3; and whenever the record's height midpoint is nonzero and lies
within the query's effective range [height_min or 0, height_max or 100] — in
particular when it equals a supplied nonzero bound inside that effective range —
the height score is 1.0. -/
theorem C4_height_amended :
    matchHeightRange { height_min := some 66, height_max := some 68 }
        { height_min := some 64, height_max := some 66 } = 2/3 ∧
    ∀ (rpc cpc : PhysicalCharacteristics) (h : ℚ),
      getHeightValue rpc = some h → h ≠ 0 →
      orDefaultNum cpc.height_min 0 ≤ h → h ≤ orDefaultNum cpc.height_max 100 →
      matchHeightRange rpc cpc = 1 := by
  constructor
  · norm_num [matchHeightRange, getHeightValue, collapseRange, numTruthy, pyOrNum,
      rangeScore, orDefaultNum]
  · intro rpc cpc h hv h0 hlo hhi
    simp only [matchHeightRange, hv, rangeScore]
    rw [if_neg h0, if_pos ⟨hlo, hhi⟩]

/-- Witness for C4 amended: a record midpoint of 65 inside the query range [64, 66]
scores 1.0. -/
theorem C4_height_amended_witness :
    matchHeightRange { height_min := some 64, height_max := some 66 }
      { height_min := some 64, height_max := some 66 } = 1 :=
  C4_height_amended.2 _ _ 65
    (by norm_num [getHeightValue, collapseRange, numTruthy, pyOrNum])
    (by norm_num) (by norm_num [orDefaultNum]) (by norm_num [orDefaultNum])

/-- C6 counterexample: at threshold 0.0 the filter also admits records with no
evaluable category at all — the blank record has used weight 0 (no category
evaluable) and confidence 0, yet it is returned. -/
theorem C6_counterexample :
    usedWeight recBlank critBlank = 0 ∧
      searchEngineSearch mgrOneBlank critBlank 0 50 = [⟨recBlank, 0⟩] := by
  constructor
  · simp [usedWeight, usedScores, allScores, physScores, heightEntry, weightEntry,
      raceEntry, sexEntry, ageEntry, marksEntry, matchLocation, stateScores,
      countyScores, cityScores, pyAvg, numTruthy, strTruthy, recBlank, critBlank]
  · simp [searchEngineSearch, searchAll, databasesToSearch, getAvailableDatabases,
      sourceRecords, fetchRecords, lookupDatabase, mgrOneBlank, dbOneBlank, recBlank, critBlank,
      scoreAndFilter, calculateMatchScore, usedWeight, weightedSum, usedScores,
      allScores, physScores, heightEntry, weightEntry, raceEntry, sexEntry, ageEntry,
      marksEntry, matchLocation, stateScores, countyScores, cityScores, pyAvg,
      numTruthy, strTruthy, sortDesc, insertDesc]

/-- C6 amended: with the threshold at 1.0, every returned result has confidence
exactly 1.0; with the threshold at 0.0, the filter admits every fetched record —
including records with no evaluable category, whose confidence is 0. -/
theorem C6_threshold_extremes :
    ∀ (m : DatabaseManager) (criteria : SearchCriteria) (k : ℕ),
      (∀ res ∈ searchEngineSearch m criteria 1 k, res.confidence_score = 1) ∧
      scoreAndFilter (searchAll m criteria) criteria 0 =
        (searchAll m criteria).map
          (fun record => ⟨record, calculateMatchScore record criteria⟩) := by
  intro m criteria k
  constructor
  · intro res hres
    obtain ⟨record, -, rfl, hge⟩ := mem_searchPipeline hres
    exact le_antisymm (calculateMatchScore_le_one _ _) hge
  · exact scoreAndFilter_zero _ _

/-- Witness for C6 amended: the concrete search at threshold 1.0 over the one-source
female manager returns the female record with confidence exactly 1. -/
theorem C6_threshold_extremes_witness :
    (⟨recFemale, (1 : ℚ)⟩ : SearchResult).confidence_score = 1 :=
  (C6_threshold_extremes mgrOneFemale critFemale 50).1 ⟨recFemale, 1⟩ (by
    simp [searchEngineSearch, searchAll, databasesToSearch, getAvailableDatabases,
      sourceRecords, fetchRecords, lookupDatabase, mgrOneFemale, dbOneFemale, recFemale, critFemale,
      scoreAndFilter, calculateMatchScore, usedWeight, weightedSum, usedScores, allScores,
      physScores, heightEntry, weightEntry, raceEntry, sexEntry, ageEntry, marksEntry,
      matchLocation, stateScores, countyScores, cityScores, pyAvg, numTruthy, strTruthy,
      weightConfig, sortDesc, insertDesc])

/-- C7 counterexample: the per-source search also aborts for a registered, available
source whose own search raises — the source's error propagates to the caller, so an
unknown database name is not the only aborting condition. -/
theorem C7_counterexample :
    lookupDatabase mgrBoom "A" = some dbBoom ∧
      searchEngineSearchDatabase mgrBoom "A" critBlank (3/10) 50 = .error "boom" := by
  constructor
  · rfl
  · rfl

/-- C7 amended: a per-source search naming a source unknown to the manager fails
fast with the descriptive error "Database {name} not found"; in addition, an error
raised by the named source's own search propagates to the caller unchanged. -/
theorem C7_unknown_database_amended :
    ∀ (m : DatabaseManager) (name : String) (criteria : SearchCriteria) (t : ℚ) (k : ℕ),
      (lookupDatabase m name = none →
        searchEngineSearchDatabase m name criteria t k =
          .error ("Database " ++ name ++ " not found")) ∧
      (∀ (db : DatabaseInterface) (e : String),
        lookupDatabase m name = some db → db.search criteria = .error e →
        searchEngineSearchDatabase m name criteria t k = .error e) := by
  intro m name criteria t k
  constructor
  · intro h
    unfold searchEngineSearchDatabase searchDatabase
    rw [h]
    rfl
  · intro db e h1 h2
    unfold searchEngineSearchDatabase searchDatabase
    rw [h1]
    dsimp only
    rw [h2]
    rfl

/-- Witness for C7 amended: an empty manager rejects the name X with the descriptive
error. -/
theorem C7_unknown_database_amended_witness :
    searchEngineSearchDatabase ⟨[]⟩ "X" critBlank (3/10) 50 =
      .error ("Database " ++ "X" ++ " not found") :=
  (C7_unknown_database_amended ⟨[]⟩ "X" critBlank (3/10) 50).1 rfl

/-- C8: when the criteria explicitly name sources and none of them is currently
available, search_all silently substitutes the full set of currently available
sources (recomputed on this call) instead of failing the query. -/
theorem C8_unavailable_requested_fallback :
    ∀ (m : DatabaseManager) (criteria : SearchCriteria),
      criteria.databases ≠ [] →
      (∀ db ∈ criteria.databases, db ∉ getAvailableDatabases m) →
      databasesToSearch m criteria = getAvailableDatabases m ∧
      searchAll m criteria = fetchRecords m (getAvailableDatabases m) criteria := by
  intro m criteria hne hnone
  have hfilter :
      criteria.databases.filter (fun db => decide (db ∈ getAvailableDatabases m)) = [] := by
    simp only [List.filter_eq_nil_iff, decide_eq_true_eq]
    exact hnone
  have hd : databasesToSearch m criteria = getAvailableDatabases m := by
    unfold databasesToSearch
    rw [if_pos hne, hfilter]
    simp
  exact ⟨hd, by unfold searchAll; rw [hd]⟩

/-- Witness for C8: requesting only the unregistered source Z against a manager whose
only available source is A falls back to searching A. -/
theorem C8_unavailable_requested_fallback_witness :
    databasesToSearch mgrOkA critRequestZ = getAvailableDatabases mgrOkA ∧
      searchAll mgrOkA critRequestZ =
        fetchRecords mgrOkA (getAvailableDatabases mgrOkA) critRequestZ :=
  C8_unavailable_requested_fallback mgrOkA critRequestZ (by decide) (by decide)

/-- C9 counterexample: both height bounds are present (0 and 68), but the collapsed
value is 68, not the arithmetic mean 34 — a bound equal to 0 is treated as absent by
Python truthiness. -/
theorem C9_counterexample :
    getHeightValue { height_min := some 0, height_max := some 68 } = some 68 ∧
      ((0 : ℚ) + 68) / 2 = 34 ∧ (34 : ℚ) ≠ 68 := by
  refine ⟨?_, by norm_num, by norm_num⟩
  simp [getHeightValue, collapseRange, numTruthy, pyOrNum]

/-- C9 amended: the height/weight/age collapse rule returns the arithmetic mean when
both bounds are present and nonzero; when the min bound is present and nonzero but
the max bound is absent or zero, it returns the min bound; when the min bound is
absent or zero, it returns the max field unchanged (so a bound equal to 0 is treated
as absent, not as a numeric bound). -/
theorem C9_midpoint_amended :
    ∀ (lo hi : Option ℚ) (a b : ℚ),
      (lo = some a → a ≠ 0 → hi = some b → b ≠ 0 →
        collapseRange lo hi = some ((a + b) / 2)) ∧
      (lo = some a → a ≠ 0 → numTruthy hi = false → collapseRange lo hi = lo) ∧
      (numTruthy lo = false → collapseRange lo hi = hi) ∧
      (∀ pc : PhysicalCharacteristics,
        getHeightValue pc = collapseRange pc.height_min pc.height_max ∧
        getWeightValue pc = collapseRange pc.weight_min pc.weight_max ∧
        getAgeValue pc = collapseRange pc.age_min pc.age_max) := by
  intro lo hi a b
  refine ⟨?_, ?_, ?_, fun pc => ⟨rfl, rfl, rfl⟩⟩
  · intro h1 h2 h3 h4
    subst h1
    subst h3
    simp [collapseRange, numTruthy, h2, h4]
  · intro h1 h2 h3
    subst h1
    have ha : numTruthy (some a) = true := by simp [numTruthy, h2]
    simp [collapseRange, pyOrNum, ha, h3]
  · intro h1
    simp [collapseRange, pyOrNum, h1]

/-- Witness for C9 amended: both bounds 3 and 5 present and nonzero collapse to the
mean 4. -/
theorem C9_midpoint_amended_witness :
    collapseRange (some 3) (some 5) = some ((3 + 5) / 2) :=
  (C9_midpoint_amended (some 3) (some 5) 3 5).1 rfl (by norm_num) rfl (by norm_num)

end JaneDoe
